import Mathlib

/-!
Verification of the autonomous-driver core of the race-game repository
(`src/utils/AICar.ts`).  Numbers are modelled as rationals; the JavaScript
`Math` primitives (`sin`, `cos`, `sqrt`, `atan2`, `PI`) are library functions
external to the repository and are modelled as parameters collected in
`MathPrims`, so every theorem is quantified over them (with explicit
hypotheses such as positivity of `sqrt` on positive inputs where a proof
needs them).
-/

set_option autoImplicit false

namespace RaceGame

/-- A point in world coordinates (`{x, y}` object literals in the source). -/
@[ext]
structure Point where
  x : ℚ
  y : ℚ
  deriving DecidableEq, Repr

/-- The part of `Track` that `AICar.ts` uses: the ordered checkpoint list and
the boundary classifier.  `Track.ts` itself is not part of the analysed
sources, so `isPointOutOfBounds` is kept abstract (an arbitrary function
field); every theorem holds for every classifier. -/
structure Track where
  checkpoints : List Point
  isPointOutOfBounds : ℚ → ℚ → Bool

/-- Models of the JavaScript `Math` library primitives used by `AICar.ts`. -/
structure MathPrims where
  sinf : ℚ → ℚ
  cosf : ℚ → ℚ
  sqrtf : ℚ → ℚ
  atan2f : ℚ → ℚ → ℚ
  pi : ℚ

/-!
## Heading-error normalization (`AICar.makeDecisions`, lines 120-122)

The source normalizes the raw angle difference with two `while` loops:
`while (angleDiff > Math.PI) angleDiff -= Math.PI * 2;`
`while (angleDiff < -Math.PI) angleDiff += Math.PI * 2;`
`pi` is a parameter; the `0 < pi` conjunct in the guard records the
termination condition (the real `Math.PI` is positive, so for the actual
constant the guard is exactly the loop condition).
-/

/-- First normalization loop: repeatedly subtract `2·pi` while the value
exceeds `pi`. -/
def normLoop1 (pi x : ℚ) : ℚ :=
  if h : 0 < pi ∧ pi < x then normLoop1 pi (x - 2 * pi) else x
termination_by (⌈(x - pi) / (2 * pi)⌉).toNat
decreasing_by
  have hpi : 0 < pi := h.1
  have hx : pi < x := h.2
  have h2 : (0 : ℚ) < 2 * pi := by linarith
  have hquot : 0 < (x - pi) / (2 * pi) := div_pos (by linarith) h2
  have hstep : (x - 2 * pi - pi) / (2 * pi) = (x - pi) / (2 * pi) - 1 := by
    field_simp
    ring
  have hceil : ⌈(x - 2 * pi - pi) / (2 * pi)⌉ = ⌈(x - pi) / (2 * pi)⌉ - 1 := by
    rw [hstep, Int.ceil_sub_one]
  have hpos : 0 < ⌈(x - pi) / (2 * pi)⌉ := Int.ceil_pos.mpr hquot
  rw [hceil]
  omega

/-- Second normalization loop: repeatedly add `2·pi` while the value is
below `-pi`. -/
def normLoop2 (pi x : ℚ) : ℚ :=
  if h : 0 < pi ∧ x < -pi then normLoop2 pi (x + 2 * pi) else x
termination_by (⌈(-pi - x) / (2 * pi)⌉).toNat
decreasing_by
  have hpi : 0 < pi := h.1
  have hx : x < -pi := h.2
  have h2 : (0 : ℚ) < 2 * pi := by linarith
  have hquot : 0 < (-pi - x) / (2 * pi) := div_pos (by linarith) h2
  have hstep : (-pi - (x + 2 * pi)) / (2 * pi) = (-pi - x) / (2 * pi) - 1 := by
    field_simp
    ring
  have hceil : ⌈(-pi - (x + 2 * pi)) / (2 * pi)⌉ = ⌈(-pi - x) / (2 * pi)⌉ - 1 := by
    rw [hstep, Int.ceil_sub_one]
  have hpos : 0 < ⌈(-pi - x) / (2 * pi)⌉ := Int.ceil_pos.mpr hquot
  rw [hceil]
  omega

/-- The normalization performed on `angleDiff`: both loops in source order. -/
def normalizeAngle (pi x : ℚ) : ℚ :=
  normLoop2 pi (normLoop1 pi x)

theorem normLoop1_le (pi x : ℚ) (hpi : 0 < pi) : normLoop1 pi x ≤ pi := by
  induction x using normLoop1.induct pi with
  | case1 x h ih =>
    rw [normLoop1, dif_pos h]
    exact ih
  | case2 x h =>
    rw [normLoop1, dif_neg h]
    rcases not_and_or.mp h with h1 | h1
    · exact absurd hpi h1
    · linarith [not_lt.mp h1]

theorem normLoop1_lower (pi x : ℚ) (hpi : 0 < pi) (hx : -pi ≤ x) :
    -pi ≤ normLoop1 pi x := by
  induction x using normLoop1.induct pi with
  | case1 x h ih =>
    rw [normLoop1, dif_pos h]
    exact ih (by linarith [h.2])
  | case2 x h =>
    rw [normLoop1, dif_neg h]
    exact hx

theorem normLoop2_ge (pi x : ℚ) (hpi : 0 < pi) : -pi ≤ normLoop2 pi x := by
  induction x using normLoop2.induct pi with
  | case1 x h ih =>
    rw [normLoop2, dif_pos h]
    exact ih
  | case2 x h =>
    rw [normLoop2, dif_neg h]
    rcases not_and_or.mp h with h1 | h1
    · exact absurd hpi h1
    · linarith [not_lt.mp h1]

theorem normLoop2_upper (pi x : ℚ) (hpi : 0 < pi) (hx : x ≤ pi) :
    normLoop2 pi x ≤ pi := by
  induction x using normLoop2.induct pi with
  | case1 x h ih =>
    rw [normLoop2, dif_pos h]
    exact ih (by linarith [h.2])
  | case2 x h =>
    rw [normLoop2, dif_neg h]
    exact hx

/-- The normalized angle always lies in the closed interval `[-pi, pi]`. -/
theorem normalizeAngle_mem (pi x : ℚ) (hpi : 0 < pi) :
    -pi ≤ normalizeAngle pi x ∧ normalizeAngle pi x ≤ pi := by
  unfold normalizeAngle
  exact ⟨normLoop2_ge pi _ hpi, normLoop2_upper pi _ hpi (normLoop1_le pi x hpi)⟩

/-!
## Vehicle state

`Car.ts` is not among the analysed sources; the fields below are those the
spec's data model lists and that `AICar.ts` reads or writes (rendering-only
fields such as `color` are omitted).  `targetCheckpoint` is `Option`-valued
because the base `Car` may leave it undefined (`AICar.isAheadOf` tests for
`undefined` explicitly).
-/

structure CarState where
  x : ℚ
  y : ℚ
  width : ℚ
  height : ℚ
  angle : ℚ
  speed : ℚ
  maxVelocity : ℚ
  boostMultiplier : ℚ
  driftFactor : ℚ
  drifting : Bool
  boostActive : Bool
  targetCheckpoint : Option ℕ

/-- Modelled from the spec: the rate constants of the `Car` control methods
(`Car.ts` is not among the analysed sources); their concrete values never
matter for the claims, so they are kept as parameters. -/
structure CarParams where
  accelerationRate : ℚ
  brakeRate : ℚ
  dragRate : ℚ
  turnRate : ℚ

namespace Car

/-- Modelled from the spec: the effective speed ceiling — boost raises the
ceiling `maxSpeed·boostMultiplier` while active. -/
def effectiveMax (c : CarState) : ℚ :=
  c.maxVelocity * (if c.boostActive then c.boostMultiplier else 1)

/-- Modelled from the spec: `Car.accelerate(dt)` increases speed toward the
effective ceiling at a fixed rate scaled by `dt`. -/
def accelerate (p : CarParams) (dt : ℚ) (c : CarState) : CarState :=
  { c with speed := min (effectiveMax c) (c.speed + p.accelerationRate * dt) }

/-- Modelled from the spec: `Car.brake(dt)` decreases speed toward zero at a
braking rate. -/
def brake (p : CarParams) (dt : ℚ) (c : CarState) : CarState :=
  { c with speed := max 0 (c.speed - p.brakeRate * dt) }

/-- Modelled from the spec: `Car.releaseAccelerator(dt)` lets speed decay
toward zero at a drag rate slower than braking. -/
def releaseAccelerator (p : CarParams) (dt : ℚ) (c : CarState) : CarState :=
  { c with speed := max 0 (c.speed - p.dragRate * dt) }

/-- Modelled from the spec: `Car.turnLeft(dt)` rotates the heading,
modulated by the drift factor when drifting. -/
def turnLeft (p : CarParams) (dt : ℚ) (c : CarState) : CarState :=
  { c with angle := c.angle - p.turnRate * dt * (if c.drifting then c.driftFactor else 1) }

/-- Modelled from the spec: `Car.turnRight(dt)`, mirror of `turnLeft`. -/
def turnRight (p : CarParams) (dt : ℚ) (c : CarState) : CarState :=
  { c with angle := c.angle + p.turnRate * dt * (if c.drifting then c.driftFactor else 1) }

/-- Modelled from the spec: `Car.activateBoost()` sets the boost flag. -/
def activateBoost (c : CarState) : CarState :=
  { c with boostActive := true }

/-- Modelled from the spec: `Car.deactivateBoost()` clears the boost flag. -/
def deactivateBoost (c : CarState) : CarState :=
  { c with boostActive := false }

/-- Modelled from the spec: `Car.update(dt)` integrates position from speed
and heading (`position += speed·dt·(sin heading, −cos heading)`), applies a
lateral drift displacement while drifting, clamps speed into
`[0, maxSpeed·boostMultiplier]` and normalizes the heading; a negative `dt`
contributes no motion. -/
def update (m : MathPrims) (c : CarState) (dt : ℚ) : CarState :=
  let dt' := max 0 dt
  let x0 := c.x + c.speed * dt' * m.sinf c.angle
  let y0 := c.y - c.speed * dt' * m.cosf c.angle
  let x1 := if c.drifting then x0 + c.driftFactor * c.speed * dt' * m.cosf c.angle else x0
  let y1 := if c.drifting then y0 + c.driftFactor * c.speed * dt' * m.sinf c.angle else y0
  { c with
    x := x1
    y := y1
    speed := max 0 (min c.speed (effectiveMax c))
    angle := normalizeAngle m.pi c.angle }

end Car

/-- Driver state: the `Car` fields plus the fields `AICar`'s constructor
adds (`track` is passed explicitly to every operation rather than stored,
and the constant `avoidanceSensors` array is a top-level definition). -/
structure AIState extends CarState where
  difficulty : ℚ
  reactionTime : ℚ
  lastDecision : ℚ
  racingLine : List Point
  aggressiveness : ℚ
  driftProbability : ℚ
  preferredSpeed : ℚ

/-- Lift a `Car` method (a `CarState` transformer) to the driver state. -/
def applyCar (f : CarState → CarState) (st : AIState) : AIState :=
  { st with toCarState := f st.toCarState }

namespace AICar

/-- The sensor array from the constructor:
`[{angle: -0.5, distance: 80}, {angle: 0, distance: 100}, {angle: 0.5, distance: 80}]`.
It is assigned once and never mutated. -/
def avoidanceSensors : List (ℚ × ℚ) :=
  [(-(1/2), 80), (0, 100), (1/2, 80)]

/-- The checkpoint-to-checkpoint displacement of leg `i`
(`dx`, `dy` in `calculateRacingLine`). -/
def legDelta (track : Track) (i : ℕ) : ℚ × ℚ :=
  let checkpoint := track.checkpoints.getD i ⟨0, 0⟩
  let nextCheckpoint :=
    track.checkpoints.getD ((i + 1) % track.checkpoints.length) ⟨0, 0⟩
  (nextCheckpoint.x - checkpoint.x, nextCheckpoint.y - checkpoint.y)

/-- The divisor `length = Math.sqrt(dx*dx + dy*dy)` of leg `i` in
`calculateRacingLine`. -/
def legLength (m : MathPrims) (track : Track) (i : ℕ) : ℚ :=
  m.sqrtf ((legDelta track i).1 * (legDelta track i).1 +
           (legDelta track i).2 * (legDelta track i).2)

/-- `AICar.calculateRacingLine`: for every checkpoint leg (wrapping), push
`segments + 1 = 6` interpolated points offset laterally by a sinusoidal
curve factor. -/
def calculateRacingLine (m : MathPrims) (track : Track) : List Point :=
  (List.range track.checkpoints.length).flatMap fun i =>
    let checkpoint := track.checkpoints.getD i ⟨0, 0⟩
    let dx := (legDelta track i).1
    let dy := (legDelta track i).2
    let length := legLength m track i
    let nx := dx / length
    let ny := dy / length
    let px := -ny
    let py := nx
    (List.range 6).map fun (j : ℕ) =>
      let t : ℚ := (j : ℚ) / 5
      let curveFactor := m.sinf (t * m.pi) * 30
      ⟨checkpoint.x + dx * t + px * curveFactor,
       checkpoint.y + dy * t + py * curveFactor⟩

/-- `AICar.getTargetRacingPoint`: scan the racing line for the closest
waypoint (strict improvement over the running minimum, which starts at
`Infinity`, here represented by `none`), then look ahead 10 indices with
wrap-around. -/
def getTargetRacingPoint (m : MathPrims) (st : AIState) : Point :=
  let scan :=
    (List.range st.racingLine.length).foldl
      (fun acc i =>
        let point := st.racingLine.getD i ⟨0, 0⟩
        let dx := point.x - st.x
        let dy := point.y - st.y
        let dist := m.sqrtf (dx * dx + dy * dy)
        match acc.2 with
        | none => (i, some dist)
        | some d => if dist < d then (i, some dist) else acc)
      ((0 : ℕ), (none : Option ℚ))
  let lookAheadIndex := (scan.1 + 10) % st.racingLine.length
  st.racingLine.getD lookAheadIndex ⟨0, 0⟩

/-- The projected endpoint of a sensor ray in `checkSensors`:
`(x + sin(angle + offset)·dist, y - cos(angle + offset)·dist)`. -/
def sensorEndpoint (m : MathPrims) (st : AIState) (sensor : ℚ × ℚ) : ℚ × ℚ :=
  let sensorAngle := st.angle + sensor.1
  (st.x + m.sinf sensorAngle * sensor.2, st.y - m.cosf sensorAngle * sensor.2)

/-- `AICar.checkSensors`: for each sensor, project the endpoint along the
sensor's absolute angle and classify it; in bounds gives `1.0`, out of
bounds gives `0.5`. -/
def checkSensors (m : MathPrims) (track : Track) (st : AIState) : List ℚ :=
  avoidanceSensors.map fun sensor =>
    let projected := sensorEndpoint m st sensor
    let isOutOfBounds := track.isPointOutOfBounds projected.1 projected.2
    if isOutOfBounds = false then 1 else 1/2

/-- `sensorReadings.some(r => r < 1.0)` in `makeDecisions`. -/
def hasCollisionAhead (m : MathPrims) (track : Track) (st : AIState) : Bool :=
  (checkSensors m track st).any fun r => decide (r < 1)

/-- `AICar.distanceToPlayer`. -/
def distanceToPlayer (m : MathPrims) (st : AIState) (playerCar : CarState) : ℚ :=
  let dx := playerCar.x - st.x
  let dy := playerCar.y - st.y
  m.sqrtf (dx * dx + dy * dy)

/-- `AICar.distanceToCheckpoint`: `1000` when the cursor is undefined,
otherwise the distance to the targeted checkpoint. -/
def distanceToCheckpoint (m : MathPrims) (track : Track) (st : AIState) : ℚ :=
  match st.targetCheckpoint with
  | none => 1000
  | some i =>
    let checkpoint := track.checkpoints.getD i ⟨0, 0⟩
    let dx := checkpoint.x - st.x
    let dy := checkpoint.y - st.y
    m.sqrtf (dx * dx + dy * dy)

/-- The tie-break quantity of `isAheadOf`: the other car's distance to
checkpoint `i` (computed inline in the source). -/
def otherDistanceToCheckpoint (m : MathPrims) (track : Track) (i : ℕ)
    (otherCar : CarState) : ℚ :=
  let cp := track.checkpoints.getD i ⟨0, 0⟩
  let dx := cp.x - otherCar.x
  let dy := cp.y - otherCar.y
  m.sqrtf (dx * dx + dy * dy)

/-- `AICar.isAheadOf`: compare checkpoint cursors, tie-break on distance to
the shared targeted checkpoint; `false` whenever either cursor is
undefined. -/
def isAheadOf (m : MathPrims) (track : Track) (st : AIState)
    (otherCar : CarState) : Bool :=
  match st.targetCheckpoint, otherCar.targetCheckpoint with
  | some i, some j =>
    if j < i then
      true
    else if i = j then
      let myDistance := distanceToCheckpoint m track st
      let otherDistance := otherDistanceToCheckpoint m track i otherCar
      decide (myDistance < otherDistance)
    else
      false
  | _, _ => false

/-- The heading error of a decision pass: bearing to the look-ahead racing
point (`Math.atan2(dx, -dy)`) minus the current heading, normalized
(lines 114-122 of `AICar.ts`). -/
def headingError (m : MathPrims) (st : AIState) : ℚ :=
  let racingTarget := getTargetRacingPoint m st
  let dx := racingTarget.x - st.x
  let dy := racingTarget.y - st.y
  let targetAngle := m.atan2f dx (-dy)
  normalizeAngle m.pi (targetAngle - st.angle)

/-- The throttle control a decision pass issues (each branch of
`makeDecisions` calls exactly one of `accelerate`, `releaseAccelerator`,
`brake`). -/
inductive ThrottleCmd where
  | accel
  | release
  | brake
  deriving DecidableEq, Repr

/-- The steering control a decision pass issues. -/
inductive SteerCmd where
  | left
  | right
  | straight
  deriving DecidableEq, Repr

/-- Steering block of `makeDecisions` (lines 127-132). -/
def steerPhase (p : CarParams) (angleDiff : ℚ) (hasCollision : Bool)
    (st : AIState) : AIState × SteerCmd :=
  let steeringFactor : ℚ := if hasCollision then 3/2 else 1
  if 1/10 < angleDiff then
    (applyCar (Car.turnRight p (st.reactionTime * steeringFactor)) st, SteerCmd.right)
  else if angleDiff < -(1/10) then
    (applyCar (Car.turnLeft p (st.reactionTime * steeringFactor)) st, SteerCmd.left)
  else
    (st, SteerCmd.straight)

/-- Throttle/drift/boost block of `makeDecisions` (lines 134-160).
`r1` models the `Math.random()` of the drift roll, `r2` the one in
`shouldBoost`, `r3` the one of the boost roll. -/
def throttlePhase (m : MathPrims) (p : CarParams) (track : Track)
    (angleDiff : ℚ) (hasCollision : Bool) (playerCar : CarState)
    (r1 r2 r3 : ℚ) (st : AIState) : AIState × ThrottleCmd :=
  if hasCollision = false ∧ |angleDiff| < 4/5 then
    let st1 :=
      if 2/5 < |angleDiff| ∧ st.preferredSpeed * (7/10) < st.speed ∧
          r1 < st.driftProbability then
        { st with drifting := true }
      else
        { st with drifting := false }
    let next :=
      if st1.speed < st1.preferredSpeed then
        (applyCar (Car.accelerate p st1.reactionTime) st1, ThrottleCmd.accel)
      else
        (applyCar (Car.releaseAccelerator p st1.reactionTime) st1, ThrottleCmd.release)
    let st2 := next.1
    let isAheadOfPlayer := isAheadOf m track st2 playerCar
    let shouldBoost := !isAheadOfPlayer ||
      (decide (150 < distanceToCheckpoint m track st2) &&
       decide (r2 < st2.difficulty * (1/5)))
    let st3 :=
      if shouldBoost && decide (r3 < st2.aggressiveness * (1/5)) then
        applyCar Car.activateBoost st2
      else
        applyCar Car.deactivateBoost st2
    (st3, next.2)
  else
    let st1 := applyCar (Car.brake p st.reactionTime) st
    let st2 := applyCar Car.deactivateBoost st1
    ({ st2 with drifting := false }, ThrottleCmd.brake)

/-- Aggressiveness adaptation of `makeDecisions` (lines 162-166). -/
def aggressivenessPhase (m : MathPrims) (playerCar : CarState)
    (st : AIState) : AIState :=
  if distanceToPlayer m st playerCar < 100 then
    { st with aggressiveness := min 1 (st.aggressiveness + 1/10) }
  else
    { st with aggressiveness := st.difficulty * (4/5) }

/-- Result of one decision pass: the new driver state and the issued
controls. -/
structure DecisionResult where
  state : AIState
  throttle : ThrottleCmd
  steer : SteerCmd

/-- `AICar.makeDecisions(playerCar)`: target selection, heading error,
sensing, steering, throttle/drift/boost, aggressiveness adaptation, in
source order. -/
def makeDecisions (m : MathPrims) (p : CarParams) (track : Track)
    (st : AIState) (playerCar : CarState) (r1 r2 r3 : ℚ) : DecisionResult :=
  let angleDiff := headingError m st
  let hasCollision := hasCollisionAhead m track st
  let steered := steerPhase p angleDiff hasCollision st
  let throttled := throttlePhase m p track angleDiff hasCollision playerCar r1 r2 r3 steered.1
  let final := aggressivenessPhase m playerCar throttled.1
  ⟨final, throttled.2, steered.2⟩

/-- `AICar.update(deltaTime, playerCar)` up to (but not including) the
checkpoint-advance check: bump the decision timer, run a decision pass when
it reached `reactionTime` and an opponent was supplied, then integrate
motion via the inherited `Car.update`. -/
def preAdvance (m : MathPrims) (p : CarParams) (track : Track) (st : AIState)
    (deltaTime : ℚ) (playerCar : Option CarState) (r1 r2 r3 : ℚ) : AIState :=
  let st1 : AIState := { st with lastDecision := st.lastDecision + deltaTime }
  let st2 :=
    match playerCar with
    | some pc =>
      if st1.reactionTime ≤ st1.lastDecision then
        (makeDecisions m p track { st1 with lastDecision := 0 } pc r1 r2 r3).state
      else
        st1
    | none => st1
  { st2 with toCarState := Car.update m st2.toCarState deltaTime }

/-- `AICar.update(deltaTime, playerCar)`: `preAdvance`, then advance the
checkpoint cursor (wrapping) when the distance to the targeted checkpoint
is below 50. -/
def update (m : MathPrims) (p : CarParams) (track : Track) (st : AIState)
    (deltaTime : ℚ) (playerCar : Option CarState) (r1 r2 r3 : ℚ) : AIState :=
  let st' := preAdvance m p track st deltaTime playerCar r1 r2 r3
  let distance := distanceToCheckpoint m track st'
  if distance < 50 then
    { st' with
      targetCheckpoint :=
        st'.targetCheckpoint.map fun t => (t + 1) % track.checkpoints.length }
  else
    st'

/-- The `AICar` constructor (lines 15-41): the `super` call initializes the
pose; `Car.ts` is not among the analysed sources, so the inherited defaults
`boostMultiplier`/`driftFactor` are parameters and initial speed is 0 with
both flags down, per the spec's lifecycle description. -/
def mkAICar (m : MathPrims) (x y width height angle : ℚ) (track : Track)
    (difficulty : ℚ) (boostMultiplier driftFactor : ℚ) : AIState :=
  { x := x
    y := y
    width := width
    height := height
    angle := angle
    speed := 0
    maxVelocity := 280 + difficulty * 40
    boostMultiplier := boostMultiplier
    driftFactor := driftFactor
    drifting := false
    boostActive := false
    targetCheckpoint := some 0
    difficulty := difficulty
    reactionTime := 1/5 - difficulty * (1/10)
    lastDecision := 0
    racingLine := calculateRacingLine m track
    aggressiveness := difficulty * (4/5)
    driftProbability := difficulty * (3/10)
    preferredSpeed := 220 + difficulty * 80 }

/-- Fields that the steering block leaves untouched (it only turns, i.e.
changes the heading). -/
theorem steerPhase_fields (p : CarParams) (angleDiff : ℚ) (hasCollision : Bool)
    (st : AIState) :
    ((steerPhase p angleDiff hasCollision st).1).x = st.x ∧
    ((steerPhase p angleDiff hasCollision st).1).y = st.y ∧
    ((steerPhase p angleDiff hasCollision st).1).speed = st.speed ∧
    ((steerPhase p angleDiff hasCollision st).1).drifting = st.drifting ∧
    ((steerPhase p angleDiff hasCollision st).1).boostActive = st.boostActive ∧
    ((steerPhase p angleDiff hasCollision st).1).targetCheckpoint = st.targetCheckpoint ∧
    ((steerPhase p angleDiff hasCollision st).1).aggressiveness = st.aggressiveness ∧
    ((steerPhase p angleDiff hasCollision st).1).difficulty = st.difficulty ∧
    ((steerPhase p angleDiff hasCollision st).1).preferredSpeed = st.preferredSpeed ∧
    ((steerPhase p angleDiff hasCollision st).1).reactionTime = st.reactionTime ∧
    ((steerPhase p angleDiff hasCollision st).1).driftProbability = st.driftProbability ∧
    ((steerPhase p angleDiff hasCollision st).1).lastDecision = st.lastDecision := by
  unfold steerPhase
  dsimp only
  split_ifs <;> exact ⟨rfl, rfl, rfl, rfl, rfl, rfl, rfl, rfl, rfl, rfl, rfl, rfl⟩

/-- Fields that the throttle/drift/boost block leaves untouched (it only
changes speed, the drift flag and the boost flag). -/
theorem throttlePhase_fields (m : MathPrims) (p : CarParams) (track : Track)
    (angleDiff : ℚ) (hasCollision : Bool) (playerCar : CarState)
    (r1 r2 r3 : ℚ) (st : AIState) :
    ((throttlePhase m p track angleDiff hasCollision playerCar r1 r2 r3 st).1).x = st.x ∧
    ((throttlePhase m p track angleDiff hasCollision playerCar r1 r2 r3 st).1).y = st.y ∧
    ((throttlePhase m p track angleDiff hasCollision playerCar r1 r2 r3 st).1).targetCheckpoint = st.targetCheckpoint ∧
    ((throttlePhase m p track angleDiff hasCollision playerCar r1 r2 r3 st).1).aggressiveness = st.aggressiveness ∧
    ((throttlePhase m p track angleDiff hasCollision playerCar r1 r2 r3 st).1).difficulty = st.difficulty ∧
    ((throttlePhase m p track angleDiff hasCollision playerCar r1 r2 r3 st).1).preferredSpeed = st.preferredSpeed ∧
    ((throttlePhase m p track angleDiff hasCollision playerCar r1 r2 r3 st).1).reactionTime = st.reactionTime ∧
    ((throttlePhase m p track angleDiff hasCollision playerCar r1 r2 r3 st).1).driftProbability = st.driftProbability ∧
    ((throttlePhase m p track angleDiff hasCollision playerCar r1 r2 r3 st).1).lastDecision = st.lastDecision := by
  unfold throttlePhase
  dsimp only
  split_ifs <;> exact ⟨rfl, rfl, rfl, rfl, rfl, rfl, rfl, rfl, rfl⟩

/-- Fields that the aggressiveness block leaves untouched. -/
theorem aggressivenessPhase_fields (m : MathPrims) (playerCar : CarState)
    (st : AIState) :
    (aggressivenessPhase m playerCar st).x = st.x ∧
    (aggressivenessPhase m playerCar st).y = st.y ∧
    (aggressivenessPhase m playerCar st).speed = st.speed ∧
    (aggressivenessPhase m playerCar st).drifting = st.drifting ∧
    (aggressivenessPhase m playerCar st).boostActive = st.boostActive ∧
    (aggressivenessPhase m playerCar st).targetCheckpoint = st.targetCheckpoint ∧
    (aggressivenessPhase m playerCar st).difficulty = st.difficulty ∧
    (aggressivenessPhase m playerCar st).lastDecision = st.lastDecision := by
  unfold aggressivenessPhase
  split_ifs <;> exact ⟨rfl, rfl, rfl, rfl, rfl, rfl, rfl, rfl⟩

/-- `distanceToPlayer` only reads the positions. -/
theorem distanceToPlayer_congr (m : MathPrims) (st st' : AIState)
    (playerCar : CarState) (hx : st'.x = st.x) (hy : st'.y = st.y) :
    distanceToPlayer m st' playerCar = distanceToPlayer m st playerCar := by
  unfold distanceToPlayer
  rw [hx, hy]

/-- A decision pass leaves the checkpoint cursor untouched. -/
theorem makeDecisions_targetCheckpoint (m : MathPrims) (p : CarParams)
    (track : Track) (st : AIState) (playerCar : CarState) (r1 r2 r3 : ℚ) :
    (makeDecisions m p track st playerCar r1 r2 r3).state.targetCheckpoint =
      st.targetCheckpoint := by
  simp only [makeDecisions]
  have h1 := steerPhase_fields p (headingError m st) (hasCollisionAhead m track st) st
  have h2 := throttlePhase_fields m p track (headingError m st)
    (hasCollisionAhead m track st) playerCar r1 r2 r3
    (steerPhase p (headingError m st) (hasCollisionAhead m track st) st).1
  have h3 := aggressivenessPhase_fields m playerCar
    (throttlePhase m p track (headingError m st) (hasCollisionAhead m track st)
      playerCar r1 r2 r3
      (steerPhase p (headingError m st) (hasCollisionAhead m track st) st).1).1
  rw [h3.2.2.2.2.2.1, h2.2.2.1, h1.2.2.2.2.2.1]

/-- A decision pass leaves the difficulty scalar untouched. -/
theorem makeDecisions_difficulty (m : MathPrims) (p : CarParams)
    (track : Track) (st : AIState) (playerCar : CarState) (r1 r2 r3 : ℚ) :
    (makeDecisions m p track st playerCar r1 r2 r3).state.difficulty =
      st.difficulty := by
  simp only [makeDecisions]
  have h1 := steerPhase_fields p (headingError m st) (hasCollisionAhead m track st) st
  have h2 := throttlePhase_fields m p track (headingError m st)
    (hasCollisionAhead m track st) playerCar r1 r2 r3
    (steerPhase p (headingError m st) (hasCollisionAhead m track st) st).1
  have h3 := aggressivenessPhase_fields m playerCar
    (throttlePhase m p track (headingError m st) (hasCollisionAhead m track st)
      playerCar r1 r2 r3
      (steerPhase p (headingError m st) (hasCollisionAhead m track st) st).1).1
  rw [h3.2.2.2.2.2.2.1, h2.2.2.2.2.1, h1.2.2.2.2.2.2.2.1]

/-- The aggressiveness produced by a decision pass, as a function of the
pre-pass state: proximity to the opponent bumps it (capped at 1), absence
of proximity resets it to `difficulty · 0.8`. -/
theorem makeDecisions_aggressiveness (m : MathPrims) (p : CarParams)
    (track : Track) (st : AIState) (playerCar : CarState) (r1 r2 r3 : ℚ) :
    (makeDecisions m p track st playerCar r1 r2 r3).state.aggressiveness =
      if distanceToPlayer m st playerCar < 100 then
        min 1 (st.aggressiveness + 1/10)
      else
        st.difficulty * (4/5) := by
  simp only [makeDecisions, aggressivenessPhase]
  have h1 := steerPhase_fields p (headingError m st) (hasCollisionAhead m track st) st
  have h2 := throttlePhase_fields m p track (headingError m st)
    (hasCollisionAhead m track st) playerCar r1 r2 r3
    (steerPhase p (headingError m st) (hasCollisionAhead m track st) st).1
  rw [distanceToPlayer_congr m st
    (throttlePhase m p track (headingError m st) (hasCollisionAhead m track st)
      playerCar r1 r2 r3
      (steerPhase p (headingError m st) (hasCollisionAhead m track st) st).1).1
    playerCar (by rw [h2.1, h1.1]) (by rw [h2.2.1, h1.2.1])]
  split_ifs with hc
  · dsimp only
    rw [h2.2.2.2.1, h1.2.2.2.2.2.2.1]
  · dsimp only
    rw [h2.2.2.2.2.1, h1.2.2.2.2.2.2.2.1]

/-- What the throttle block issues in each of its two branches. -/
theorem throttlePhase_spec (m : MathPrims) (p : CarParams) (track : Track)
    (angleDiff : ℚ) (hasCollision : Bool) (playerCar : CarState)
    (r1 r2 r3 : ℚ) (st : AIState) :
    (hasCollision = false ∧ |angleDiff| < 4/5 →
      (throttlePhase m p track angleDiff hasCollision playerCar r1 r2 r3 st).2 =
        (if st.speed < st.preferredSpeed then ThrottleCmd.accel else ThrottleCmd.release)) ∧
    (¬ (hasCollision = false ∧ |angleDiff| < 4/5) →
      (throttlePhase m p track angleDiff hasCollision playerCar r1 r2 r3 st).2 = ThrottleCmd.brake ∧
      (throttlePhase m p track angleDiff hasCollision playerCar r1 r2 r3 st).1.boostActive = false ∧
      (throttlePhase m p track angleDiff hasCollision playerCar r1 r2 r3 st).1.drifting = false) := by
  constructor
  · intro h
    unfold throttlePhase
    rw [if_pos h]
    dsimp only
    split_ifs <;> rfl
  · intro h
    unfold throttlePhase
    rw [if_neg h]
    exact ⟨rfl, rfl, rfl⟩

/-- `preAdvance` (decision pass plus motion integration) never moves the
checkpoint cursor. -/
theorem preAdvance_targetCheckpoint (m : MathPrims) (p : CarParams)
    (track : Track) (st : AIState) (deltaTime : ℚ)
    (playerCar : Option CarState) (r1 r2 r3 : ℚ) :
    (preAdvance m p track st deltaTime playerCar r1 r2 r3).targetCheckpoint =
      st.targetCheckpoint := by
  cases playerCar with
  | none => rfl
  | some pc =>
    unfold preAdvance
    dsimp only
    split_ifs with h
    · exact makeDecisions_targetCheckpoint m p track _ pc r1 r2 r3
    · rfl

/-- Iterated decision passes (the fold of `makeDecisions` over a sequence of
`(opponent, randoms)` inputs). -/
def decisionPasses (m : MathPrims) (p : CarParams) (track : Track)
    (st : AIState) (passes : List (CarState × ℚ × ℚ × ℚ)) : AIState :=
  passes.foldl
    (fun s q => (makeDecisions m p track s q.1 q.2.1 q.2.2.1 q.2.2.2).state) st

/-- One aggressiveness update keeps the scalar in `[0, 1]` when difficulty
is in `[0, 1]`. -/
theorem makeDecisions_aggressiveness_bounds (m : MathPrims) (p : CarParams)
    (track : Track) (st : AIState) (playerCar : CarState) (r1 r2 r3 : ℚ)
    (hd0 : 0 ≤ st.difficulty) (hd1 : st.difficulty ≤ 1)
    (ha0 : 0 ≤ st.aggressiveness) :
    0 ≤ (makeDecisions m p track st playerCar r1 r2 r3).state.aggressiveness ∧
    (makeDecisions m p track st playerCar r1 r2 r3).state.aggressiveness ≤ 1 := by
  rw [makeDecisions_aggressiveness]
  split_ifs with hc
  · constructor
    · exact le_min (by norm_num) (by linarith)
    · exact min_le_left _ _
  · constructor <;> nlinarith

/-- Any sequence of decision passes preserves the difficulty scalar and
keeps aggressiveness in `[0, 1]`. -/
theorem decisionPasses_invariant (m : MathPrims) (p : CarParams)
    (track : Track) (passes : List (CarState × ℚ × ℚ × ℚ)) :
    ∀ st : AIState, 0 ≤ st.difficulty → st.difficulty ≤ 1 →
      0 ≤ st.aggressiveness → st.aggressiveness ≤ 1 →
      (decisionPasses m p track st passes).difficulty = st.difficulty ∧
      0 ≤ (decisionPasses m p track st passes).aggressiveness ∧
      (decisionPasses m p track st passes).aggressiveness ≤ 1 := by
  induction passes with
  | nil => exact fun st _ _ ha0 ha1 => ⟨rfl, ha0, ha1⟩
  | cons q rest ih =>
    intro st hd0 hd1 ha0 ha1
    have hdiff := makeDecisions_difficulty m p track st q.1 q.2.1 q.2.2.1 q.2.2.2
    have hb := makeDecisions_aggressiveness_bounds m p track st q.1 q.2.1 q.2.2.1
      q.2.2.2 hd0 hd1 ha0
    have hstep :
        decisionPasses m p track st (q :: rest) =
          decisionPasses m p track
            (makeDecisions m p track st q.1 q.2.1 q.2.2.1 q.2.2.2).state rest := rfl
    rw [hstep]
    have hrec := ih (makeDecisions m p track st q.1 q.2.1 q.2.2.1 q.2.2.2).state
      (by rw [hdiff]; exact hd0) (by rw [hdiff]; exact hd1) hb.1 hb.2
    exact ⟨by rw [hrec.1, hdiff], hrec.2.1, hrec.2.2⟩

/-!
## Concrete fixtures for witnesses and counterexamples
-/

/-- Concrete `Math` primitives for evaluation: `sqrt` is modelled by the
identity (which is positive on positives) and the other primitives by
simple total functions; `pi` by the rational `355/113`. -/
def mEx : MathPrims :=
  { sinf := fun q => q
    cosf := fun q => q
    sqrtf := fun q => q
    atan2f := fun a b => a + b
    pi := 355/113 }

/-- A concrete three-checkpoint track whose boundary test always reports
in-bounds. -/
def trackEx : Track :=
  { checkpoints := [⟨0, 0⟩, ⟨100, 0⟩, ⟨0, 100⟩]
    isPointOutOfBounds := fun _ _ => false }

/-- The same checkpoints with a boundary test that always reports
out-of-bounds. -/
def trackOut : Track :=
  { checkpoints := [⟨0, 0⟩, ⟨100, 0⟩, ⟨0, 100⟩]
    isPointOutOfBounds := fun _ _ => true }

/-- Concrete car rate constants. -/
def pEx : CarParams :=
  { accelerationRate := 1, brakeRate := 1, dragRate := 1, turnRate := 1 }

/-- A concrete opponent car. -/
def carEx : CarState :=
  { x := 0, y := 0, width := 30, height := 50, angle := 0, speed := 0
    maxVelocity := 300, boostMultiplier := 2, driftFactor := 1
    drifting := false, boostActive := false, targetCheckpoint := some 0 }

/-- A concrete driver state built by the constructor at difficulty `1/2`. -/
def aiEx : AIState := mkAICar mEx 0 0 30 50 0 trackEx (1/2) 2 1

/-!
## The claims
-/

/-- Claim C1: in every `AICar.update(dt, opponent)` call the checkpoint
cursor advances by at most one: it becomes `(i+1) mod checkpointCount`
exactly when the distance to the currently targeted checkpoint, measured
after motion integration (`preAdvance`), is below the fixed threshold 50,
and stays `i` otherwise; hence for every track with `checkpointCount ≥ 1`
the cursor remains inside `[0, checkpointCount)`. -/
theorem update_checkpoint_cursor (m : MathPrims) (p : CarParams)
    (track : Track) (st : AIState) (deltaTime : ℚ)
    (playerCar : Option CarState) (r1 r2 r3 : ℚ) (i : ℕ)
    (hn : 1 ≤ track.checkpoints.length)
    (hi : st.targetCheckpoint = some i)
    (hir : i < track.checkpoints.length) :
    ∃ j, (update m p track st deltaTime playerCar r1 r2 r3).targetCheckpoint = some j ∧
      j < track.checkpoints.length ∧
      ((distanceToCheckpoint m track
          (preAdvance m p track st deltaTime playerCar r1 r2 r3) < 50 ∧
        j = (i + 1) % track.checkpoints.length) ∨
       (¬ distanceToCheckpoint m track
          (preAdvance m p track st deltaTime playerCar r1 r2 r3) < 50 ∧
        j = i)) := by
  have hpre := preAdvance_targetCheckpoint m p track st deltaTime playerCar r1 r2 r3
  unfold update
  dsimp only
  split_ifs with h
  · refine ⟨(i + 1) % track.checkpoints.length, ?_, Nat.mod_lt _ (by omega),
      Or.inl ⟨h, rfl⟩⟩
    rw [hpre, hi]
    rfl
  · exact ⟨i, by rw [hpre, hi], hir, Or.inr ⟨h, rfl⟩⟩

/-- Witness for C1 at a concrete input. -/
theorem update_checkpoint_cursor_witness :
    1 ≤ trackEx.checkpoints.length ∧
    ∃ j, (update mEx pEx trackEx aiEx 0 none 0 0 0).targetCheckpoint = some j ∧
      j < trackEx.checkpoints.length ∧
      ((distanceToCheckpoint mEx trackEx
          (preAdvance mEx pEx trackEx aiEx 0 none 0 0 0) < 50 ∧
        j = (0 + 1) % trackEx.checkpoints.length) ∨
       (¬ distanceToCheckpoint mEx trackEx
          (preAdvance mEx pEx trackEx aiEx 0 none 0 0 0) < 50 ∧
        j = 0)) :=
  ⟨by decide,
   update_checkpoint_cursor mEx pEx trackEx aiEx 0 none 0 0 0 0 (by decide) rfl
     (by decide)⟩

/-- Claim C10: when no decision pass runs — the accumulated decision timer
stays below the reaction interval, or the opponent argument is omitted —
`update` equals pure motion integration followed by the checkpoint-advance
check: aggressiveness, the drift flag and the boost flag are unchanged and
the decision timer grows by exactly `dt`. -/
theorem update_no_decision_pass (m : MathPrims) (p : CarParams)
    (track : Track) (st : AIState) (deltaTime : ℚ)
    (playerCar : Option CarState) (r1 r2 r3 : ℚ)
    (h : st.lastDecision + deltaTime < st.reactionTime ∨ playerCar = none) :
    update m p track st deltaTime playerCar r1 r2 r3 =
      (let st3 : AIState :=
        { st with toCarState := Car.update m st.toCarState deltaTime,
                  lastDecision := st.lastDecision + deltaTime }
       if distanceToCheckpoint m track st3 < 50 then
         { st3 with targetCheckpoint :=
             st3.targetCheckpoint.map (fun t => (t + 1) % track.checkpoints.length) }
       else st3) ∧
    (update m p track st deltaTime playerCar r1 r2 r3).aggressiveness = st.aggressiveness ∧
    (update m p track st deltaTime playerCar r1 r2 r3).drifting = st.drifting ∧
    (update m p track st deltaTime playerCar r1 r2 r3).boostActive = st.boostActive ∧
    (update m p track st deltaTime playerCar r1 r2 r3).lastDecision =
      st.lastDecision + deltaTime := by
  have hpre : preAdvance m p track st deltaTime playerCar r1 r2 r3 =
      { st with toCarState := Car.update m st.toCarState deltaTime,
                lastDecision := st.lastDecision + deltaTime } := by
    cases playerCar with
    | none => rfl
    | some pc =>
      rcases h with hlt | hne
      · unfold preAdvance
        dsimp only
        rw [if_neg (not_le.mpr hlt)]
      · exact absurd hne (by simp)
  have hU : update m p track st deltaTime playerCar r1 r2 r3 =
      (let st3 : AIState :=
        { st with toCarState := Car.update m st.toCarState deltaTime,
                  lastDecision := st.lastDecision + deltaTime }
       if distanceToCheckpoint m track st3 < 50 then
         { st3 with targetCheckpoint :=
             st3.targetCheckpoint.map (fun t => (t + 1) % track.checkpoints.length) }
       else st3) := by
    unfold update
    rw [hpre]
  refine ⟨hU, ?_, ?_, ?_, ?_⟩ <;>
    · rw [hU]
      dsimp only
      split_ifs <;> rfl

/-- Witness for C10: with the opponent omitted, the timer grows by `dt` and
the flags survive. -/
theorem update_no_decision_pass_witness :
    ((aiEx.lastDecision + 1 < aiEx.reactionTime ∨ (none : Option CarState) = none) ∧
      (update mEx pEx trackEx aiEx 1 none 0 0 0).lastDecision =
        aiEx.lastDecision + 1 ∧
      (update mEx pEx trackEx aiEx 1 none 0 0 0).aggressiveness =
        aiEx.aggressiveness) :=
  ⟨Or.inr rfl,
   (update_no_decision_pass mEx pEx trackEx aiEx 1 none 0 0 0 (Or.inr rfl)).2.2.2.2,
   (update_no_decision_pass mEx pEx trackEx aiEx 1 none 0 0 0 (Or.inr rfl)).2.1⟩

/-- Claim C2: in every decision pass with difficulty in `[0,1]`, proximity
to the opponent (distance below 100) raises aggressiveness — strictly while
it is below 1 — and never above 1.0; without proximity it is reset to the
baseline `difficulty · 0.8`; consequently aggressiveness stays in `[0,1]`
over any sequence of decision passes. -/
theorem aggressiveness_dynamics (m : MathPrims) (p : CarParams)
    (track : Track) (st : AIState) (playerCar : CarState) (r1 r2 r3 : ℚ)
    (hd0 : 0 ≤ st.difficulty) (hd1 : st.difficulty ≤ 1)
    (ha0 : 0 ≤ st.aggressiveness) (ha1 : st.aggressiveness ≤ 1) :
    (distanceToPlayer m st playerCar < 100 →
      st.aggressiveness ≤
        (makeDecisions m p track st playerCar r1 r2 r3).state.aggressiveness ∧
      (makeDecisions m p track st playerCar r1 r2 r3).state.aggressiveness ≤ 1 ∧
      (st.aggressiveness < 1 →
        st.aggressiveness <
          (makeDecisions m p track st playerCar r1 r2 r3).state.aggressiveness)) ∧
    (¬ distanceToPlayer m st playerCar < 100 →
      (makeDecisions m p track st playerCar r1 r2 r3).state.aggressiveness =
        st.difficulty * (4/5)) ∧
    0 ≤ (makeDecisions m p track st playerCar r1 r2 r3).state.aggressiveness ∧
    (makeDecisions m p track st playerCar r1 r2 r3).state.aggressiveness ≤ 1 ∧
    (∀ passes : List (CarState × ℚ × ℚ × ℚ),
      0 ≤ (decisionPasses m p track st passes).aggressiveness ∧
      (decisionPasses m p track st passes).aggressiveness ≤ 1) := by
  have hagg := makeDecisions_aggressiveness m p track st playerCar r1 r2 r3
  have hb := makeDecisions_aggressiveness_bounds m p track st playerCar r1 r2 r3
    hd0 hd1 ha0
  refine ⟨?_, ?_, hb.1, hb.2, ?_⟩
  · intro hc
    rw [hagg, if_pos hc]
    refine ⟨le_min ha1 (by linarith), min_le_left _ _, ?_⟩
    intro hlt
    exact lt_min hlt (by linarith)
  · intro hc
    rw [hagg, if_neg hc]
  · intro passes
    have h := decisionPasses_invariant m p track passes st hd0 hd1 ha0 ha1
    exact ⟨h.2.1, h.2.2⟩

/-- Witness for C2 at a concrete input. -/
theorem aggressiveness_dynamics_witness :
    ((0 : ℚ) ≤ aiEx.difficulty ∧ aiEx.difficulty ≤ 1 ∧
      0 ≤ aiEx.aggressiveness ∧ aiEx.aggressiveness ≤ 1) ∧
    0 ≤ (makeDecisions mEx pEx trackEx aiEx carEx 0 0 0).state.aggressiveness ∧
    (makeDecisions mEx pEx trackEx aiEx carEx 0 0 0).state.aggressiveness ≤ 1 := by
  have h := aggressiveness_dynamics mEx pEx trackEx aiEx carEx 0 0 0
    (by norm_num [aiEx, mkAICar]) (by norm_num [aiEx, mkAICar])
    (by norm_num [aiEx, mkAICar]) (by norm_num [aiEx, mkAICar])
  exact ⟨⟨by norm_num [aiEx, mkAICar], by norm_num [aiEx, mkAICar],
    by norm_num [aiEx, mkAICar], by norm_num [aiEx, mkAICar]⟩, h.2.2.1, h.2.2.2.1⟩

/-- Claim C3: in every decision pass, when the heading error is inside the
committed envelope (`|error| < 0.8`) and no imminent-collision condition
holds, the driver accelerates exactly when its speed is below its preferred
speed and otherwise releases the accelerator — never brakes; when the error
is outside the envelope or a collision is flagged, it brakes, deactivates
boost and clears the drift flag (in particular for heading error around π,
whose magnitude exceeds 0.8). -/
theorem decision_throttle_policy (m : MathPrims) (p : CarParams)
    (track : Track) (st : AIState) (playerCar : CarState) (r1 r2 r3 : ℚ) :
    (hasCollisionAhead m track st = false ∧ |headingError m st| < 4/5 →
      (makeDecisions m p track st playerCar r1 r2 r3).throttle =
        (if st.speed < st.preferredSpeed then ThrottleCmd.accel
         else ThrottleCmd.release) ∧
      (makeDecisions m p track st playerCar r1 r2 r3).throttle ≠
        ThrottleCmd.brake) ∧
    (hasCollisionAhead m track st = true ∨ 4/5 ≤ |headingError m st| →
      (makeDecisions m p track st playerCar r1 r2 r3).throttle =
        ThrottleCmd.brake ∧
      (makeDecisions m p track st playerCar r1 r2 r3).state.boostActive = false ∧
      (makeDecisions m p track st playerCar r1 r2 r3).state.drifting = false) := by
  have hs := steerPhase_fields p (headingError m st) (hasCollisionAhead m track st) st
  have ht := throttlePhase_spec m p track (headingError m st)
    (hasCollisionAhead m track st) playerCar r1 r2 r3
    (steerPhase p (headingError m st) (hasCollisionAhead m track st) st).1
  have ha := aggressivenessPhase_fields m playerCar
    (throttlePhase m p track (headingError m st) (hasCollisionAhead m track st)
      playerCar r1 r2 r3
      (steerPhase p (headingError m st) (hasCollisionAhead m track st) st).1).1
  have hthr : (makeDecisions m p track st playerCar r1 r2 r3).throttle =
      (throttlePhase m p track (headingError m st) (hasCollisionAhead m track st)
        playerCar r1 r2 r3
        (steerPhase p (headingError m st) (hasCollisionAhead m track st) st).1).2 := rfl
  have hstate : (makeDecisions m p track st playerCar r1 r2 r3).state =
      aggressivenessPhase m playerCar
        (throttlePhase m p track (headingError m st) (hasCollisionAhead m track st)
          playerCar r1 r2 r3
          (steerPhase p (headingError m st) (hasCollisionAhead m track st) st).1).1 := rfl
  constructor
  · intro h
    have h2 := ht.1 h
    constructor
    · rw [hthr, h2, hs.2.2.1, hs.2.2.2.2.2.2.2.2.1]
    · rw [hthr, h2, hs.2.2.1, hs.2.2.2.2.2.2.2.2.1]
      split_ifs <;> decide
  · intro h
    have hcond : ¬ (hasCollisionAhead m track st = false ∧
        |headingError m st| < 4/5) := by
      rcases h with h | h
      · intro hc
        rw [h] at hc
        cases hc.1
      · intro hc
        linarith [hc.2]
    have h2 := ht.2 hcond
    refine ⟨by rw [hthr]; exact h2.1, ?_, ?_⟩
    · rw [hstate, ha.2.2.2.2.1, h2.2.1]
    · rw [hstate, ha.2.2.2.1, h2.2.2]

/-- Counterexample to C4: the constructor performs no clamping — with
difficulty input 2 the stored difficulty is 2 and the stored aggressiveness
is `2 · 0.8 = 1.6`, both outside `[0, 1]`. -/
theorem mkAICar_does_not_clamp :
    (mkAICar mEx 0 0 30 50 0 trackEx 2 2 1).difficulty = 2 ∧
    (mkAICar mEx 0 0 30 50 0 trackEx 2 2 1).aggressiveness = 8/5 ∧
    (mkAICar mEx 0 0 30 50 0 trackEx 2 2 1).driftProbability = 3/5 ∧
    ¬ ((mkAICar mEx 0 0 30 50 0 trackEx 2 2 1).difficulty ≤ 1) ∧
    ¬ ((mkAICar mEx 0 0 30 50 0 trackEx 2 2 1).aggressiveness ≤ 1) := by
  refine ⟨rfl, by norm_num [mkAICar], by norm_num [mkAICar], by norm_num [mkAICar],
    by norm_num [mkAICar]⟩

/-- Claim C4 (amended): the constructor stores the difficulty input and the
derived scalars unclamped (`difficulty`, `driftProbability = difficulty·0.3`,
`aggressiveness = difficulty·0.8`); for every difficulty input already in
`[0,1]` all three stored scalars lie in `[0,1]`, but an out-of-range input
is passed through unmodified (neither clamped nor rejected). -/
theorem mkAICar_scalars (m : MathPrims) (x y width height angle : ℚ)
    (track : Track) (difficulty boostMultiplier driftFactor : ℚ)
    (hd0 : 0 ≤ difficulty) (hd1 : difficulty ≤ 1) :
    (mkAICar m x y width height angle track difficulty boostMultiplier
        driftFactor).difficulty = difficulty ∧
    (mkAICar m x y width height angle track difficulty boostMultiplier
        driftFactor).driftProbability = difficulty * (3/10) ∧
    (mkAICar m x y width height angle track difficulty boostMultiplier
        driftFactor).aggressiveness = difficulty * (4/5) ∧
    0 ≤ (mkAICar m x y width height angle track difficulty boostMultiplier
        driftFactor).difficulty ∧
    (mkAICar m x y width height angle track difficulty boostMultiplier
        driftFactor).difficulty ≤ 1 ∧
    0 ≤ (mkAICar m x y width height angle track difficulty boostMultiplier
        driftFactor).driftProbability ∧
    (mkAICar m x y width height angle track difficulty boostMultiplier
        driftFactor).driftProbability ≤ 1 ∧
    0 ≤ (mkAICar m x y width height angle track difficulty boostMultiplier
        driftFactor).aggressiveness ∧
    (mkAICar m x y width height angle track difficulty boostMultiplier
        driftFactor).aggressiveness ≤ 1 := by
  have h2 : (mkAICar m x y width height angle track difficulty boostMultiplier
      driftFactor).driftProbability = difficulty * (3/10) := rfl
  have h3 : (mkAICar m x y width height angle track difficulty boostMultiplier
      driftFactor).aggressiveness = difficulty * (4/5) := rfl
  refine ⟨rfl, h2, h3, hd0, hd1, ?_, ?_, ?_, ?_⟩ <;>
    first
      | (rw [h2]; nlinarith)
      | (rw [h3]; nlinarith)

/-- Witness for the amended C4 at difficulty `1/2`. -/
theorem mkAICar_scalars_witness :
    ((0 : ℚ) ≤ 1/2 ∧ (1/2 : ℚ) ≤ 1) ∧
    aiEx.difficulty = 1/2 ∧
    0 ≤ aiEx.aggressiveness ∧ aiEx.aggressiveness ≤ 1 := by
  have h := mkAICar_scalars mEx 0 0 30 50 0 trackEx (1/2) 2 1
    (by norm_num) (by norm_num)
  exact ⟨⟨by norm_num, by norm_num⟩, h.1, h.2.2.2.2.2.2.2.1, h.2.2.2.2.2.2.2.2⟩

/-- Counterexample to C5: when the raw difference `bearing − heading` is
exactly `−pi`, neither normalization loop fires, so the normalized value is
exactly `−pi` and the claimed strict bound `−pi < angleDiff` fails (shown
with `pi = 355/113`, bearing 0, heading `355/113`; under the real `Math.PI`
the same input `heading = π + bearing` produces the same run, since the
loops only compare against `pi`). -/
theorem normalizeAngle_hits_neg_pi :
    normalizeAngle (355/113) ((0 : ℚ) - 355/113) = -(355/113) ∧
    ¬ (-(355/113 : ℚ) < normalizeAngle (355/113) ((0 : ℚ) - 355/113)) := by
  have h : normalizeAngle (355/113) ((0 : ℚ) - 355/113) = -(355/113) := by
    unfold normalizeAngle
    rw [normLoop1, dif_neg (by norm_num)]
    rw [normLoop2, dif_neg (by norm_num)]
    norm_num
  exact ⟨h, by rw [h]; exact lt_irrefl _⟩

/-- Claim C5 (amended): for every positive `pi`, every target bearing `t`
and every heading `a`, the normalized heading error lies in the closed
interval `[−pi, pi]` (the lower endpoint is attained exactly when the raw
difference is congruent to `−pi`); likewise the program's `headingError`
value lies in `[−pi, pi]` whenever the modelled `Math.PI` is positive. -/
theorem heading_error_normalized (pi t a : ℚ) (m : MathPrims) (st : AIState)
    (hpi : 0 < pi) (hm : 0 < m.pi) :
    (-pi ≤ normalizeAngle pi (t - a) ∧ normalizeAngle pi (t - a) ≤ pi) ∧
    (-m.pi ≤ headingError m st ∧ headingError m st ≤ m.pi) := by
  refine ⟨normalizeAngle_mem pi (t - a) hpi, ?_⟩
  unfold headingError
  exact normalizeAngle_mem m.pi _ hm

/-- Witness for the amended C5 at a concrete input. -/
theorem heading_error_normalized_witness :
    ((0 : ℚ) < 355/113 ∧ (0 : ℚ) < mEx.pi) ∧
    (-(355/113 : ℚ) ≤ normalizeAngle (355/113) ((0 : ℚ) - 355/113) ∧
      normalizeAngle (355/113) ((0 : ℚ) - 355/113) ≤ 355/113) ∧
    (-mEx.pi ≤ headingError mEx aiEx ∧ headingError mEx aiEx ≤ mEx.pi) := by
  have h := heading_error_normalized (355/113) 0 (355/113) mEx aiEx
    (by norm_num) (by norm_num [mEx])
  exact ⟨⟨by norm_num, by norm_num [mEx]⟩, h.1, h.2⟩

/-- Summing the lengths of `n` equal-length blocks. -/
theorem sum_map_length_const {β : Type} (n k : ℕ) (f : ℕ → List β)
    (hf : ∀ i, (f i).length = k) :
    ((List.range n).map fun i => (f i).length).sum = k * n := by
  have hrep : (List.range n).map (fun i => (f i).length) = List.replicate n k := by
    apply List.eq_replicate_iff.mpr
    refine ⟨by simp, ?_⟩
    intro b hb
    simp only [List.mem_map] at hb
    obtain ⟨i, _, rfl⟩ := hb
    exact hf i
  rw [hrep, List.sum_replicate, smul_eq_mul, Nat.mul_comm]

/-- Claim C6: for every track with at least one checkpoint and distinct
consecutive checkpoints, the racing line computed at construction has
exactly `checkpointCount · (segments + 1) = 6 · checkpointCount` points. -/
theorem racingLine_length (m : MathPrims) (track : Track)
    (hc : 1 ≤ track.checkpoints.length)
    (hdist : ∀ i, i < track.checkpoints.length →
      track.checkpoints.getD i ⟨0, 0⟩ ≠
        track.checkpoints.getD ((i + 1) % track.checkpoints.length) ⟨0, 0⟩) :
    (calculateRacingLine m track).length = 6 * track.checkpoints.length := by
  unfold calculateRacingLine
  rw [List.length_flatMap]
  exact sum_map_length_const track.checkpoints.length 6 _ fun i => by simp

/-- Witness for C6 on the concrete three-checkpoint track. -/
theorem racingLine_length_witness :
    1 ≤ trackEx.checkpoints.length ∧
    (calculateRacingLine mEx trackEx).length = 6 * trackEx.checkpoints.length :=
  ⟨by decide, racingLine_length mEx trackEx (by decide) (by decide)⟩

/-- Claim C7: the sensing step returns exactly three readings, one per
configured ray; a reading is the full clear value `1.0` exactly when the
projected endpoint is in bounds and the strictly smaller `0.5` when it is
out of bounds; the imminent-collision flag holds exactly when some reading
is below the clear threshold `1.0`, i.e. exactly when some ray endpoint is
out of bounds. -/
theorem sensors_contract (m : MathPrims) (track : Track) (st : AIState) :
    (checkSensors m track st).length = 3 ∧
    (∀ r ∈ checkSensors m track st, r = 1 ∨ r = 1/2) ∧
    (∀ k, k < 3 →
      (checkSensors m track st).getD k 0 =
        (if track.isPointOutOfBounds
            (sensorEndpoint m st (avoidanceSensors.getD k (0, 0))).1
            (sensorEndpoint m st (avoidanceSensors.getD k (0, 0))).2 = false
         then 1 else 1/2)) ∧
    ((1 : ℚ)/2 < 1) ∧
    (hasCollisionAhead m track st = true ↔
      ∃ r ∈ checkSensors m track st, r < 1) ∧
    (hasCollisionAhead m track st = true ↔
      ∃ s ∈ avoidanceSensors,
        track.isPointOutOfBounds (sensorEndpoint m st s).1
          (sensorEndpoint m st s).2 = true) := by
  refine ⟨?_, ?_, ?_, by norm_num, ?_, ?_⟩
  · simp [checkSensors, avoidanceSensors]
  · intro r hr
    simp only [checkSensors, avoidanceSensors, List.map_cons, List.map_nil,
      List.mem_cons, List.not_mem_nil, or_false] at hr
    rcases hr with h | h | h <;> rw [h] <;> split_ifs <;> simp
  · intro k hk
    interval_cases k <;>
      simp [checkSensors, avoidanceSensors]
  · unfold hasCollisionAhead
    rw [List.any_eq_true]
    constructor
    · rintro ⟨r, hr, hlt⟩
      exact ⟨r, hr, of_decide_eq_true hlt⟩
    · rintro ⟨r, hr, hlt⟩
      exact ⟨r, hr, decide_eq_true hlt⟩
  · unfold hasCollisionAhead checkSensors
    rw [List.any_eq_true]
    constructor
    · rintro ⟨r, hr, hlt⟩
      simp only [List.mem_map] at hr
      obtain ⟨s, hs, rfl⟩ := hr
      rw [decide_eq_true_eq] at hlt
      refine ⟨s, hs, ?_⟩
      by_contra hfalse
      have hb : track.isPointOutOfBounds (sensorEndpoint m st s).1
          (sensorEndpoint m st s).2 = false := by
        cases hcase : track.isPointOutOfBounds (sensorEndpoint m st s).1
            (sensorEndpoint m st s).2
        · rfl
        · exact absurd hcase hfalse
      have hlt' : (if track.isPointOutOfBounds (sensorEndpoint m st s).1
          (sensorEndpoint m st s).2 = false then (1 : ℚ) else 1/2) < 1 := hlt
      rw [hb] at hlt'
      norm_num at hlt'
    · rintro ⟨s, hs, hb⟩
      refine ⟨1/2, ?_, by norm_num⟩
      simp only [List.mem_map]
      refine ⟨s, hs, ?_⟩
      show (if track.isPointOutOfBounds (sensorEndpoint m st s).1
          (sensorEndpoint m st s).2 = false then (1 : ℚ) else 1/2) = 1/2
      rw [hb]
      norm_num

/-- Claim C8: `isAheadOf(other)` returns `true` exactly when this driver's
checkpoint cursor is strictly greater than the other car's, or the two are
equal and this driver is strictly closer to the shared targeted checkpoint;
in every other case — including an undefined cursor on either side — it
returns `false`.  (The in-range hypothesis matches the only states in which
the source's checkpoint lookup is defined.) -/
theorem isAheadOf_iff (m : MathPrims) (track : Track) (st : AIState)
    (otherCar : CarState)
    (hr : ∀ k, st.targetCheckpoint = some k → k < track.checkpoints.length) :
    (isAheadOf m track st otherCar = true ↔
      ∃ i j, st.targetCheckpoint = some i ∧ otherCar.targetCheckpoint = some j ∧
        (j < i ∨ (i = j ∧ distanceToCheckpoint m track st <
          otherDistanceToCheckpoint m track i otherCar))) := by
  unfold isAheadOf
  cases hst : st.targetCheckpoint with
  | none => simp [hst]
  | some i =>
    cases hoc : otherCar.targetCheckpoint with
    | none => simp [hst, hoc]
    | some j =>
      by_cases h1 : j < i
      · simp [hst, hoc, h1]
      · by_cases h2 : i = j
        · simp [hst, hoc, h1, h2]
        · simp [hst, hoc, h1, h2]

/-- Witness for C8: on a concrete tie at checkpoint 0 with this driver
strictly closer, `isAheadOf` returns `true`. -/
theorem isAheadOf_iff_witness :
    (∀ k, aiEx.targetCheckpoint = some k → k < trackEx.checkpoints.length) ∧
    (isAheadOf mEx trackEx aiEx
        { carEx with x := 500, y := 500 } = true ↔
      ∃ i j, aiEx.targetCheckpoint = some i ∧
        ({ carEx with x := 500, y := 500 } : CarState).targetCheckpoint = some j ∧
        (j < i ∨ (i = j ∧ distanceToCheckpoint mEx trackEx aiEx <
          otherDistanceToCheckpoint mEx trackEx i
            { carEx with x := 500, y := 500 }))) :=
  ⟨fun k hk => by
      rw [show aiEx.targetCheckpoint = some 0 from rfl] at hk
      cases hk
      decide,
   isAheadOf_iff mEx trackEx aiEx { carEx with x := 500, y := 500 }
     (fun k hk => by
        rw [show aiEx.targetCheckpoint = some 0 from rfl] at hk
        cases hk
        decide)⟩

/-- Claim C9: on every track whose consecutive checkpoints (including the
wrap-around pair) are distinct, the squared leg displacement is nonzero and
hence the divisor `length = sqrt(dx·dx + dy·dy)` of every leg of
`calculateRacingLine` is strictly positive (so nonzero, and the division is
well defined), for any model of `sqrt` that is positive on positive
inputs — as the real `Math.sqrt` is. -/
theorem racingLine_divisor_nonzero (m : MathPrims) (track : Track)
    (hsq : ∀ q : ℚ, 0 < q → 0 < m.sqrtf q)
    (hdist : ∀ i, i < track.checkpoints.length →
      track.checkpoints.getD i ⟨0, 0⟩ ≠
        track.checkpoints.getD ((i + 1) % track.checkpoints.length) ⟨0, 0⟩) :
    ∀ i, i < track.checkpoints.length →
      (legDelta track i).1 * (legDelta track i).1 +
        (legDelta track i).2 * (legDelta track i).2 ≠ 0 ∧
      0 < legLength m track i ∧ legLength m track i ≠ 0 := by
  intro i hi
  have hne := hdist i hi
  have hor : (legDelta track i).1 ≠ 0 ∨ (legDelta track i).2 ≠ 0 := by
    by_contra hcon
    push_neg at hcon
    apply hne
    have h1 := hcon.1
    have h2 := hcon.2
    unfold legDelta at h1 h2
    dsimp only at h1 h2
    ext
    · linarith
    · linarith
  have hsum : 0 < (legDelta track i).1 * (legDelta track i).1 +
      (legDelta track i).2 * (legDelta track i).2 := by
    rcases hor with h | h
    · nlinarith [mul_self_pos.mpr h, mul_self_nonneg (legDelta track i).2]
    · nlinarith [mul_self_nonneg (legDelta track i).1, mul_self_pos.mpr h]
  exact ⟨ne_of_gt hsum, hsq _ hsum, ne_of_gt (hsq _ hsum)⟩

/-- Witness for C9 on the concrete three-checkpoint track (with `sqrt`
modelled by the identity, positive on positives). -/
theorem racingLine_divisor_nonzero_witness :
    (∀ i, i < trackEx.checkpoints.length →
      trackEx.checkpoints.getD i ⟨0, 0⟩ ≠
        trackEx.checkpoints.getD ((i + 1) % trackEx.checkpoints.length) ⟨0, 0⟩) ∧
    0 < legLength mEx trackEx 0 ∧ legLength mEx trackEx 0 ≠ 0 :=
  ⟨by decide,
   (racingLine_divisor_nonzero mEx trackEx (fun _ h => h) (by decide) 0
      (by decide)).2⟩

end AICar

end RaceGame
